import Mathlib

/-!
Shallow embedding of `moleculer-db-adapter-couchdb-nano` (src/index.js).

The adapter is a thin facade over the `nano` CouchDB driver.  JavaScript
values appearing in documents, selectors and driver responses are modelled
by the inductive type `JsVal`; a JavaScript object is a list of
key/value entries (`Doc`).  All statements about documents are made up to
key lookup (`docEquiv` / `docGet`), so the entry order used by the model
is irrelevant, matching the "field ordering aside" reading of the spec.

The CouchDB server / nano driver is external to the repository; it is
modelled by `DB`, `dbFind`, `dbBulk`, `dbGet`, `dbDestroy` following the
documented CouchDB/nano behaviour (Mango `_find`, `_bulk_docs`, `GET` /
`DELETE` of a document).  Where the model is generous to the adapter this
is noted in the corresponding doc comment.
-/

set_option autoImplicit false
set_option linter.unusedVariables false

namespace CouchDbNano

/-- Model of a JavaScript runtime value as used by the adapter:
`null`, `undefined`, booleans, numbers (modelled as integers — no claim
depends on non-integral numerics), strings, arrays and plain objects. -/
inductive JsVal : Type where
  | vnull : JsVal
  | vundefined : JsVal
  | vbool : Bool → JsVal
  | vnum : Int → JsVal
  | vstr : String → JsVal
  | varr : List JsVal → JsVal
  | vobj : List (String × JsVal) → JsVal

/-- A JavaScript object: a finite association of string keys to values.
JavaScript objects cannot repeat a key; all lookups below return the first
binding, and all statements are made through `docGet`, so a well-formedness
invariant is not needed. -/
abbrev Doc : Type := List (String × JsVal)

/-- `typeof v` of JavaScript: note `typeof null` and `typeof` of an array
are both `"object"`. -/
def jsTypeof : JsVal → String
  | .vnull => "object"
  | .vundefined => "undefined"
  | .vbool _ => "boolean"
  | .vnum _ => "number"
  | .vstr _ => "string"
  | .varr _ => "object"
  | .vobj _ => "object"

/-- Key lookup in an object: `some v` when the key is present. -/
def docGet (d : Doc) (k : String) : Option JsVal :=
  (d.find? (fun p => p.1 == k)).map Prod.snd

/-- JavaScript property read `d[k]`: an absent key reads as `undefined`. -/
def jsIndex (d : Doc) (k : String) : JsVal :=
  (docGet d k).getD JsVal.vundefined

/-- JavaScript `delete d[k]`. -/
def docDelete (d : Doc) (k : String) : Doc :=
  d.filter (fun p => !(p.1 == k))

/-- JavaScript property write `d[k] = v` (position of the binding is not
tracked; every statement reads objects through `docGet`). -/
def docSet (d : Doc) (k : String) (v : JsVal) : Doc :=
  docDelete d k ++ [(k, v)]

/-- Equality of objects up to key lookup — "equal, field ordering aside". -/
def docEquiv (d₁ d₂ : Doc) : Prop :=
  ∀ k : String, docGet d₁ k = docGet d₂ k

/-- Whether a value is JavaScript `undefined`. -/
def JsVal.isUndefined : JsVal → Bool
  | .vundefined => true
  | _ => false

/-- `beforeSaveTransformID(entity, idField)` (src/index.js:351-358).
The source deep-clones the entity and then, when `idField !== "_id"` and
`newEntity[idField] !== undefined`, moves the value of `idField` into
`_id` (overwriting any `_id` binding) and deletes `idField`.  The clone is
the identity in this pure model. -/
def beforeSaveTransformID (entity : Doc) (idField : String) : Doc :=
  if idField ≠ "_id" ∧ (jsIndex entity idField).isUndefined = false then
    docDelete (docSet entity "_id" (jsIndex entity idField)) idField
  else entity

/-- `afterRetrieveTransformID(entity, idField)` (src/index.js:367-373).
When `idField !== "_id"` it assigns `entity[idField] = entity["_id"]`
(reading `undefined` when `_id` is absent) and deletes `_id`.  The source
mutates `entity` in place; the model returns the resulting value. -/
def afterRetrieveTransformID (entity : Doc) (idField : String) : Doc :=
  if idField ≠ "_id" then
    docDelete (docSet entity idField (jsIndex entity "_id")) "_id"
  else entity

mutual

/-- Deep equality of JSON values, as used by the Mango `$eq` operator. -/
def JsVal.beq : JsVal → JsVal → Bool
  | .vnull, .vnull => true
  | .vundefined, .vundefined => true
  | .vbool a, .vbool b => a == b
  | .vnum a, .vnum b => a == b
  | .vstr a, .vstr b => a == b
  | .varr a, .varr b => JsVal.beqList a b
  | .vobj a, .vobj b => JsVal.beqFields a b
  | _, _ => false

/-- Elementwise deep equality of value lists. -/
def JsVal.beqList : List JsVal → List JsVal → Bool
  | [], [] => true
  | a :: t₁, b :: t₂ => JsVal.beq a b && JsVal.beqList t₁ t₂
  | _, _ => false

/-- Entrywise deep equality of object entry lists. -/
def JsVal.beqFields : List (String × JsVal) → List (String × JsVal) → Bool
  | [], [] => true
  | (k₁, v₁) :: t₁, (k₂, v₂) :: t₂ =>
      k₁ == k₂ && JsVal.beq v₁ v₂ && JsVal.beqFields t₁ t₂
  | _, _ => false

end

/-- Mango relational order, modelled for numbers and strings (the only
shapes the spec exercises); other shapes compare as incomparable. -/
def jsLt : JsVal → JsVal → Bool
  | .vnum a, .vnum b => a < b
  | .vstr a, .vstr b => a < b
  | _, _ => false

/-- One Mango operator condition `{$op: arg}` applied to a field value.
Operators outside this set make the server reject the query; modelled as
matching nothing (no claim depends on them). -/
def matchCmp (fieldVal : JsVal) : String × JsVal → Bool
  | ("$eq", arg) => JsVal.beq fieldVal arg
  | ("$ne", arg) => !(JsVal.beq fieldVal arg)
  | ("$lt", arg) => jsLt fieldVal arg
  | ("$gt", arg) => jsLt arg fieldVal
  | ("$lte", arg) => jsLt fieldVal arg || JsVal.beq fieldVal arg
  | ("$gte", arg) => jsLt arg fieldVal || JsVal.beq fieldVal arg
  | _ => false

/-- A field condition: an object of operator conditions, all of which
must hold.  A non-object condition is rejected by the server; modelled as
matching nothing. -/
def matchCond (fieldVal cond : JsVal) : Bool :=
  match cond with
  | .vobj conds => conds.all (matchCmp fieldVal)
  | _ => false

/-- Whether a document matches a Mango selector: every top-level entry's
condition holds of the corresponding field. -/
def matchesSelector (sel : JsVal) (d : Doc) : Bool :=
  match sel with
  | .vobj entries => entries.all (fun p => matchCond (jsIndex d p.1) p.2)
  | _ => false

/-- The state of the CouchDB database backing the adapter. -/
structure DB where
  docs : List Doc

/-- Environment model of Mango `_find` (`db.find` in nano): the documents
matching the selector, after `skip` and truncated to `limit` when those
are numbers.  Sorting and field projection are not modelled; no claim
depends on them. -/
def dbFind (db : DB) (selector limit skip : JsVal) : List Doc :=
  let matched := db.docs.filter (fun d => matchesSelector selector d)
  let skipped :=
    match skip with
    | .vnum n => matched.drop n.toNat
    | _ => matched
  match limit with
  | .vnum n => skipped.take n.toNat
  | _ => skipped

/-- Whether a string begins with the character `$`. -/
def startsWithDollar (s : String) : Bool :=
  match s.data with
  | [] => false
  | c :: _ => c == '$'

/-- Modelled from the spec: a selector value "already in comparison
form" — an object of operator conditions such as `{$eq: v}` or
`{$gt: v}`.  Used only to state C3; the source itself tests
`typeof value !== 'object'` instead. -/
def isComparisonObject : JsVal → Bool
  | .vobj entries => !entries.isEmpty && entries.all (fun p => startsWithDollar p.1)
  | _ => false

/-- The per-entry normalization `find` applies to the selector
(src/index.js:98-102): a value whose `typeof` is not `"object"` is
replaced by `{$eq: value}`; every other value is left untouched. -/
def normalizeValue (v : JsVal) : JsVal :=
  if jsTypeof v ≠ "object" then JsVal.vobj [("$eq", v)] else v

/-- `Object.entries(selector).forEach(...)` of src/index.js:98-102 applied
to a selector object, entry by entry.  `Object.entries` of the non-object
values a selector could erroneously be yields no own enumerable entries
(and throws on `null`); those cases are modelled as the identity — no
claim ranges over them. -/
def normalizeSelector : JsVal → JsVal
  | .vobj entries => .vobj (entries.map (fun p => (p.1, normalizeValue p.2)))
  | v => v

/-- `const {selector = filters, ...} = filters` (src/index.js:97): the
destructuring default applies exactly when `filters.selector` reads as
`undefined`, in which case the filters object itself is the selector. -/
def selectorOf (filters : Doc) : JsVal :=
  match jsIndex filters "selector" with
  | .vundefined => .vobj filters
  | v => v

/-- Result of `find`: the array the promise resolves to, together with
the caller's filters object as observable after the call — the `forEach`
of src/index.js:98-102 writes the `{$eq: ...}` wrappers back into the
selector object itself (the caller's object, aliased rather than
copied), so the post-call filters differ from the pre-call ones. -/
structure FindResult where
  docs : List Doc
  filters : Doc

/-- `find(filters)` (src/index.js:96-104).  `limit` and `skip` are
destructured from `filters` before the normalization loop runs, so they
are read from the original object even when the selector defaulted to
the filters object itself. -/
def find (db : DB) (filters : Doc) : FindResult :=
  let nsel := normalizeSelector (selectorOf filters)
  let filtersAfter :=
    match jsIndex filters "selector", nsel with
    | .vundefined, .vobj entries => entries
    | .vundefined, _ => filters
    | _, _ => docSet filters "selector" nsel
  { docs := dbFind db nsel (jsIndex filters "limit") (jsIndex filters "skip")
  , filters := filtersAfter }

/-- `count(filters)` (src/index.js:163-165): literally `find` followed by
taking the length of the resolved array. -/
def count (db : DB) (filters : Doc) : Nat :=
  (find db filters).docs.length

/-- `findOne(query)` (src/index.js:120-123): build a fresh filters object
`{selector: query, limit: 1}`, run `find`, and resolve to the first
element of the result when nonempty and to `null` (modelled `none`)
otherwise. -/
def findOne (db : DB) (query : JsVal) : Option Doc :=
  match (find db [("selector", query), ("limit", JsVal.vnum 1)]).docs with
  | [] => none
  | d :: _ => some d

/-- A rejected promise: the JavaScript error it carries. -/
inductive JsError : Type where
  | typeError : String → JsError
  | referenceError : String → JsError
  | httpError : Nat → String → JsError

/-- The acknowledgement object CouchDB returns per document from
`_bulk_docs`: `{ok: true, id, rev}` — not the stored document itself. -/
def bulkAck (id rev : String) : JsVal :=
  JsVal.vobj [("ok", JsVal.vbool true), ("id", JsVal.vstr id), ("rev", JsVal.vstr rev)]

/-- Environment model of `db.bulk` / `_bulk_docs`: store every entity
(keeping a string `_id` when present, otherwise assigning `"gen<i>"`, and
stamping a fresh `_rev`), and return one acknowledgement `{ok, id, rev}`
per input, in input order.  The model is generous to the adapter: the
real driver expects `{docs: [...]}` and the source hands it the bare
entity array (src/index.js:188), which the server would reject; even
granting the write, the resolved value is the acknowledgement list. -/
def dbBulk (db : DB) (entities : List Doc) : DB × List JsVal :=
  let numbered := entities.enum
  let stored := numbered.map (fun p =>
    let id :=
      match docGet p.2 "_id" with
      | some (.vstr s) => s
      | _ => "gen" ++ toString p.1
    let rev := "1-r" ++ toString p.1
    (docSet (docSet p.2 "_id" (JsVal.vstr id)) "_rev" (JsVal.vstr rev),
     bulkAck id rev))
  (⟨db.docs ++ stored.map Prod.fst⟩, stored.map Prod.snd)

/-- `insertMany(entities)` (src/index.js:187-189): one `db.bulk` call,
resolving to the bulk result unchanged (`then(result => result)`). -/
def insertMany (db : DB) (entities : List Doc) : DB × List JsVal :=
  dbBulk db entities

/-- `updateMany(query, update)` (src/index.js:200-202).  The body is
`Promise.resolve(this.db.bulk(entities).then(result => result))`, where
`entities` is not bound anywhere in scope (the parameters are `query` and
`update`); evaluating the body throws
`ReferenceError: entities is not defined` before any database
interaction, for every input. -/
def updateMany (db : DB) (query update : JsVal) : Except JsError (DB × JsVal) :=
  Except.error (JsError.referenceError "entities is not defined")

/-- Environment model of `db.get(id)`: `200` with the stored document
whose `_id` equals the given string, `404` otherwise (including when the
argument is not a string — the driver stringifies it into a path that
names no stored document). -/
def dbGet (db : DB) (id : JsVal) : Except JsError Doc :=
  match id with
  | .vstr s =>
      match db.docs.find? (fun d =>
        match docGet d "_id" with
        | some (.vstr t) => t == s
        | _ => false) with
      | some d => Except.ok d
      | none => Except.error (JsError.httpError 404 "not_found")
  | _ => Except.error (JsError.httpError 404 "not_found")

/-- `findById(_id)` (src/index.js:133-135): a direct `db.get`. -/
def findById (db : DB) (id : JsVal) : Except JsError Doc :=
  dbGet db id

/-- Environment model of `db.destroy(docname, rev)`: a `DELETE` of the
named document carrying the given revision in the query string.  It
succeeds (resolving to `{ok, id, rev}` and removing the document) only
when `docname` is the string id of a stored document and `rev` is its
current revision string; a request without a valid revision, or whose
path (the stringified `docname`) names no stored document, is refused by
the server. -/
def dbDestroy (db : DB) (docname rev : JsVal) : Except JsError (DB × JsVal) :=
  match docname, rev with
  | .vstr s, .vstr r =>
      match db.docs.find? (fun d =>
        match docGet d "_id" with
        | some (.vstr t) => t == s
        | _ => false) with
      | some d =>
          match jsIndex d "_rev" with
          | .vstr t =>
              if t = r then
                Except.ok
                  (⟨db.docs.filter (fun d₂ =>
                      match docGet d₂ "_id" with
                      | some (.vstr u) => !(u == s)
                      | _ => true)⟩,
                   JsVal.vobj [("ok", JsVal.vbool true), ("id", JsVal.vstr s),
                               ("rev", JsVal.vstr r)])
              else Except.error (JsError.httpError 409 "conflict")
          | _ => Except.error (JsError.httpError 409 "conflict")
      | none => Except.error (JsError.httpError 404 "not_found")
  | .vstr _, _ => Except.error (JsError.httpError 409 "conflict")
  | _, _ => Except.error (JsError.httpError 404 "not_found")

/-- `removeById(_id)` (src/index.js:241-243):
`this.findById(_id).then(doc => this.db.destroy(doc))` — `destroy` is
called with the fetched document object as the document name and no
revision argument (so the revision reads as `undefined`), and the
returned promise resolves to whatever `destroy` resolves to. -/
def removeById (db : DB) (id : JsVal) : Except JsError (DB × JsVal) :=
  (findById db id).bind (fun doc => dbDestroy db (JsVal.vobj doc) JsVal.vundefined)

/-- `removeMany(query)` (src/index.js:228-231): the body reads
`this.collection.deleteMany`, but no code path in the class ever assigns
`this.collection` (the adapter's handle lives in `this.db`, assigned at
src/index.js:65), so evaluation throws a TypeError — dereferencing
`deleteMany` of `undefined` — for every query and every database state. -/
def removeMany (db : DB) (query : JsVal) : Except JsError (DB × JsVal) :=
  Except.error (JsError.typeError "this.collection is undefined")

/-- JavaScript property read `v.k` on an arbitrary value: object reads go
through the entries; reads on primitives yield `undefined`. -/
def jsProp (v : JsVal) (k : String) : JsVal :=
  match v with
  | .vobj o => jsIndex o k
  | _ => .vundefined

/-- `clear()` (src/index.js:252-254):
`this.removeMany({}).then(res => res.deletedCount)`. -/
def clear (db : DB) : Except JsError (DB × JsVal) :=
  (removeMany db (JsVal.vobj [])).bind
    (fun p => Except.ok (p.1, jsProp p.2 "deletedCount"))

/-- The constructor-visible instance fields involved in `connect`:
`this.uri` and `this.opts` are assigned by the constructor
(src/index.js:21-25); `this.url` is read at src/index.js:53 but assigned
nowhere in the class, so it always reads as `undefined` (`none`). -/
structure Adapter where
  uri : Option String
  opts : Option JsVal
  url : Option String

/-- `constructor(uri, opts)` (src/index.js:21-25): stores `uri` and
`opts`; `this.url` is left unassigned. -/
def mkAdapter (uri : Option String) (opts : Option JsVal) : Adapter :=
  { uri := uri, opts := opts, url := none }

/-- The `url` connection option computed by `connect` (src/index.js:53):
`this.url ? this.uri.replace('couchdb://', 'http://') : '' || 'http://localhost:5984'`.
The ternary tests `this.url` for truthiness (a missing or empty string is
falsy); in the falsy branch `'' || 'http://localhost:5984'` always
evaluates to `'http://localhost:5984'`.  JavaScript `replace` with a
string pattern replaces the first occurrence; the scheme prefix occurs at
most once in a URI, so Lean's `String.replace` agrees on the inputs of
interest. -/
def connectUrl (a : Adapter) : String :=
  match a.url with
  | some u =>
      if u = "" then "http://localhost:5984"
      else (a.uri.getD "").replace "couchdb://" "http://"
  | none => "http://localhost:5984"

section DocLemmas

theorem docGet_nil (k : String) : docGet [] k = none := rfl

theorem docGet_cons (p : String × JsVal) (t : Doc) (k : String) :
    docGet (p :: t) k = if p.1 = k then some p.2 else docGet t k := by
  by_cases h : p.1 = k
  · rw [docGet, List.find?_cons_of_pos _ (by simpa using h)]
    simp [h]
  · rw [docGet, List.find?_cons_of_neg _ (by simpa using h)]
    simp [h, docGet]

theorem docDelete_nil (k : String) : docDelete [] k = [] := rfl

theorem docDelete_cons (p : String × JsVal) (t : Doc) (k : String) :
    docDelete (p :: t) k = if p.1 = k then docDelete t k else p :: docDelete t k := by
  by_cases h : p.1 = k <;> simp [docDelete, List.filter_cons, h]

theorem docGet_append (d₁ d₂ : Doc) (k : String) :
    docGet (d₁ ++ d₂) k = (docGet d₁ k).or (docGet d₂ k) := by
  induction d₁ with
  | nil => simp [docGet_nil]
  | cons p t ih =>
      by_cases h : p.1 = k <;> simp [docGet_cons, h, ih]

theorem docGet_docDelete_self (d : Doc) (k : String) :
    docGet (docDelete d k) k = none := by
  induction d with
  | nil => simp [docGet_nil, docDelete_nil]
  | cons p t ih =>
      by_cases h : p.1 = k <;> simp [docDelete_cons, docGet_cons, h, ih]

theorem docGet_docDelete_ne (d : Doc) (k k' : String) (h : k' ≠ k) :
    docGet (docDelete d k) k' = docGet d k' := by
  induction d with
  | nil => simp [docDelete_nil]
  | cons p t ih =>
      by_cases hp : p.1 = k
      · have hp' : ¬ p.1 = k' := fun hc => h (hc ▸ hp ▸ rfl)
        simp [docDelete_cons, docGet_cons, hp, hp', ih, Ne.symm h]
      · by_cases hq : p.1 = k' <;>
          simp [docDelete_cons, docGet_cons, hp, hq, ih, h, Ne.symm h]

theorem docGet_docSet_self (d : Doc) (k : String) (v : JsVal) :
    docGet (docSet d k v) k = some v := by
  rw [docSet, docGet_append, docGet_docDelete_self]
  simp [docGet_cons]

theorem docGet_docSet_ne (d : Doc) (k k' : String) (v : JsVal) (h : k' ≠ k) :
    docGet (docSet d k v) k' = docGet d k' := by
  rw [docSet, docGet_append, docGet_docDelete_ne d k k' h]
  have : docGet [(k, v)] k' = none := by
    simp [docGet_cons, docGet_nil, Ne.symm h]
  rw [this]
  cases docGet d k' <;> rfl

theorem isUndefined_eq_false_of_ne (v : JsVal) (h : v ≠ JsVal.vundefined) :
    v.isUndefined = false := by
  cases v <;> simp_all [JsVal.isUndefined]

theorem map_ne_self_of_mem {α : Type} (f : α → α) (l : List α) (x : α)
    (hx : x ∈ l) (hne : f x ≠ x) : l.map f ≠ l := by
  induction l with
  | nil => cases hx
  | cons a t ih =>
      intro h
      have h1 : f a = a := (List.cons.inj h).1
      have h2 : t.map f = t := (List.cons.inj h).2
      cases hx with
      | head => exact hne h1
      | tail _ hmem => exact ih hmem h2

theorem ne_vobj_of_typeof (v : JsVal) (h : jsTypeof v ≠ "object")
    (l : List (String × JsVal)) : v ≠ JsVal.vobj l := by
  intro hc
  subst hc
  exact h rfl

theorem normalizeValue_of_not_object (v : JsVal) (h : jsTypeof v ≠ "object") :
    normalizeValue v = JsVal.vobj [("$eq", v)] := by
  rw [normalizeValue, if_pos h]

end DocLemmas

/-- C1 counterexample: for a document that already carries a native
`"_id"` binding, `beforeSaveTransformID` overwrites it with the value of
the configured identifier field, so the round trip loses the original
`"_id"` value and its result is not equal to the input document, not even
up to field ordering. -/
theorem transformID_roundtrip_cex :
    ¬ docEquiv
        (afterRetrieveTransformID
          (beforeSaveTransformID
            [("_id", JsVal.vstr "x"), ("name", JsVal.vstr "y")] "name")
          "name")
        [("_id", JsVal.vstr "x"), ("name", JsVal.vstr "y")] :=
  fun h => Option.noConfusion (h "_id")

/-- C1 (amended): the save/retrieve identifier translation is a round
trip for documents that carry the configured identifier field (with a
defined value) and do not already carry the native `"_id"` field: for
such `D` and `idField ≠ "_id"`,
`afterRetrieveTransformID (beforeSaveTransformID D idField) idField`
equals `D` up to field ordering. -/
theorem transformID_roundtrip (D : Doc) (idField : String) (v : JsVal)
    (hf : idField ≠ "_id") (hv : docGet D idField = some v)
    (hvu : v ≠ JsVal.vundefined) (hid : docGet D "_id" = none) :
    docEquiv (afterRetrieveTransformID (beforeSaveTransformID D idField) idField) D := by
  have hji : jsIndex D idField = v := by simp [jsIndex, hv]
  have hcond : idField ≠ "_id" ∧ (jsIndex D idField).isUndefined = false :=
    ⟨hf, by rw [hji]; exact isUndefined_eq_false_of_ne v hvu⟩
  rw [beforeSaveTransformID, if_pos hcond, afterRetrieveTransformID, if_pos hf]
  have hBid :
      docGet (docDelete (docSet D "_id" (jsIndex D idField)) idField) "_id"
        = some v := by
    rw [docGet_docDelete_ne _ _ _ (Ne.symm hf), docGet_docSet_self, hji]
  intro k
  by_cases hk1 : k = "_id"
  · subst hk1
    rw [docGet_docDelete_self, hid]
  · by_cases hk2 : k = idField
    · subst hk2
      rw [docGet_docDelete_ne _ _ _ hk1, docGet_docSet_self, jsIndex, hBid, hv]
      rfl
    · rw [docGet_docDelete_ne _ _ _ hk1, docGet_docSet_ne _ _ _ _ hk2,
          docGet_docDelete_ne _ _ _ hk2, docGet_docSet_ne _ _ _ _ hk1]

/-- Witness for C1 (amended) at a concrete document. -/
theorem transformID_roundtrip_wit :
    docEquiv
      (afterRetrieveTransformID
        (beforeSaveTransformID
          [("name", JsVal.vstr "y"), ("age", JsVal.vnum 7)] "name")
        "name")
      [("name", JsVal.vstr "y"), ("age", JsVal.vnum 7)] :=
  transformID_roundtrip _ "name" (JsVal.vstr "y")
    (by decide) rfl (by intro h; exact JsVal.noConfusion h) rfl

/-- C2: `count(F)` is the length of the array `find(F)` resolves to, for
every filters object and every database state — `count` literally runs
`find` and takes `.length` of the result. -/
theorem count_eq_find_length (db : DB) (filters : Doc) :
    count db filters = ((find db filters).docs).length := rfl

/-- C3 counterexample: the nested plain object `{city: "NY"}` is not a
comparison object, yet the normalization of `find` passes it through
unchanged instead of rewriting it to `{$eq: {city: "NY"}}` — the code
tests `typeof value !== 'object'`, not "is already in comparison form",
so every object-typed value (comparison form or not, including `null`
and arrays) is passed through as-is. -/
theorem normalize_cex :
    isComparisonObject (JsVal.vobj [("city", JsVal.vstr "NY")]) = false
  ∧ normalizeValue (JsVal.vobj [("city", JsVal.vstr "NY")])
      = JsVal.vobj [("city", JsVal.vstr "NY")]
  ∧ normalizeValue (JsVal.vobj [("city", JsVal.vstr "NY")])
      ≠ JsVal.vobj [("$eq", JsVal.vobj [("city", JsVal.vstr "NY")])] := by
  refine ⟨rfl, rfl, ?_⟩
  intro h
  have h3 : JsVal.vobj [("city", JsVal.vstr "NY")]
      = JsVal.vobj [("$eq", JsVal.vobj [("city", JsVal.vstr "NY")])] := h
  have hk : ("city", JsVal.vstr "NY")
      = ("$eq", JsVal.vobj [("city", JsVal.vstr "NY")]) :=
    (List.cons.inj (JsVal.vobj.inj h3)).1
  exact absurd (Prod.mk.inj hk).1 (by decide)

/-- C3 (amended): the selector handed to the driver by `find` is the
caller's selector rewritten entrywise — a top-level value whose `typeof`
is not `"object"` becomes `{$eq: value}`, and every object-typed value
(`null`, arrays, and all objects whether or not in comparison form) is
passed through unchanged. -/
theorem find_driver_selector (db : DB) (filters : Doc)
    (entries : List (String × JsVal))
    (hsel : jsIndex filters "selector" = JsVal.vobj entries) :
    (find db filters).docs
      = dbFind db
          (JsVal.vobj (entries.map (fun p =>
            (p.1, if jsTypeof p.2 ≠ "object"
                  then JsVal.vobj [("$eq", p.2)] else p.2))))
          (jsIndex filters "limit") (jsIndex filters "skip") := by
  simp only [find, selectorOf, hsel, normalizeSelector, normalizeValue]

/-- Witness for C3 (amended): a selector with one bare value and one
comparison-form value. -/
theorem find_driver_selector_wit :
    (find ⟨[]⟩
      [("selector",
        JsVal.vobj [("a", JsVal.vnum 1),
                    ("b", JsVal.vobj [("$gt", JsVal.vnum 0)])])]).docs
      = dbFind ⟨[]⟩
          (JsVal.vobj
            (([("a", JsVal.vnum 1),
               ("b", JsVal.vobj [("$gt", JsVal.vnum 0)])] :
                List (String × JsVal)).map (fun p =>
              (p.1, if jsTypeof p.2 ≠ "object"
                    then JsVal.vobj [("$eq", p.2)] else p.2))))
          (jsIndex [("selector",
            JsVal.vobj [("a", JsVal.vnum 1),
                        ("b", JsVal.vobj [("$gt", JsVal.vnum 0)])])] "limit")
          (jsIndex [("selector",
            JsVal.vobj [("a", JsVal.vnum 1),
                        ("b", JsVal.vobj [("$gt", JsVal.vnum 0)])])] "skip") :=
  find_driver_selector ⟨[]⟩ _ _ rfl

/-- C4: `findOne(Q)` is `find` with selector `Q` and limit 1 — it
resolves to the first document of the database matching the (normalized)
query when one exists, and to `null` (`none`), not an error, when no
document matches. -/
theorem findOne_first_match (db : DB) (s : List (String × JsVal)) :
    findOne db (JsVal.vobj s)
      = (db.docs.filter
          (fun d => matchesSelector (normalizeSelector (JsVal.vobj s)) d)).head? := by
  have h1 : jsIndex [("selector", JsVal.vobj s), ("limit", JsVal.vnum 1)] "selector"
      = JsVal.vobj s := rfl
  have h2 : jsIndex [("selector", JsVal.vobj s), ("limit", JsVal.vnum 1)] "limit"
      = JsVal.vnum 1 := rfl
  have h3 : jsIndex [("selector", JsVal.vobj s), ("limit", JsVal.vnum 1)] "skip"
      = JsVal.vundefined := rfl
  have hdocs :
      (find db [("selector", JsVal.vobj s), ("limit", JsVal.vnum 1)]).docs
        = (db.docs.filter
            (fun d => matchesSelector (normalizeSelector (JsVal.vobj s)) d)).take 1 := by
    simp only [find, selectorOf, dbFind, h1, h2, h3, Int.toNat_one]
  rw [findOne, hdocs]
  cases db.docs.filter (fun d => matchesSelector (normalizeSelector (JsVal.vobj s)) d) with
  | nil => rfl
  | cons d t => rfl

/-- C5 (code bug): `insertMany` resolves to the driver's bulk
acknowledgements `{ok, id, rev}`, one per input, not to the stored
documents — evaluated here on one input document, the resolved entry
carries no `"name"` field, so it cannot be the stored representation of
the input (contradicting the method's own doc comment "Return with the
inserted documents in an Array"). -/
theorem insertMany_resolves_to_acks :
    (insertMany ⟨[]⟩ [[("name", JsVal.vstr "a")]]).2
        = [JsVal.vobj [("ok", JsVal.vbool true), ("id", JsVal.vstr "gen0"),
                       ("rev", JsVal.vstr "1-r0")]]
    ∧ docGet [("ok", JsVal.vbool true), ("id", JsVal.vstr "gen0"),
              ("rev", JsVal.vstr "1-r0")] "name" = none :=
  ⟨rfl, rfl⟩

/-- C6 (code bug): `updateMany` never finds, merges or bulk-writes
anything — its body references the unbound identifier `entities`, so it
throws a ReferenceError for every query, patch and database state. -/
theorem updateMany_reference_error (db : DB) (query update : JsVal) :
    updateMany db query update
      = Except.error (JsError.referenceError "entities is not defined") := rfl

/-- C7 (code bug): on a database holding the document
`{_id: "a", _rev: "1-r0", x: 1}`, `findById "a"` succeeds, but
`removeById "a"` rejects: the code passes the fetched document object —
not its id string — as the document name and supplies no revision, so the
delete is not tagged with the document's revision and the call does not
resolve to the pre-deletion snapshot. -/
theorem removeById_rejects :
    findById ⟨[[("_id", JsVal.vstr "a"), ("_rev", JsVal.vstr "1-r0"),
                ("x", JsVal.vnum 1)]]⟩ (JsVal.vstr "a")
        = Except.ok [("_id", JsVal.vstr "a"), ("_rev", JsVal.vstr "1-r0"),
                     ("x", JsVal.vnum 1)]
    ∧ removeById ⟨[[("_id", JsVal.vstr "a"), ("_rev", JsVal.vstr "1-r0"),
                    ("x", JsVal.vnum 1)]]⟩ (JsVal.vstr "a")
        = Except.error (JsError.httpError 404 "not_found") :=
  ⟨rfl, rfl⟩

/-- C8 (code bug): `clear()` does call `removeMany` with the empty
filter, but `removeMany` dereferences `this.collection`, which is never
assigned anywhere in the class, so both reject with a TypeError instead
of resolving to the number of removed documents — for every database
state. -/
theorem clear_rejects (db : DB) :
    clear db = Except.error (JsError.typeError "this.collection is undefined")
    ∧ removeMany db (JsVal.vobj [])
        = Except.error (JsError.typeError "this.collection is undefined") :=
  ⟨rfl, rfl⟩

/-- C9 (code bug): the constructor stores the URI in `this.uri` and never
assigns `this.url`, while `connect` tests `this.url`; the ternary
therefore always takes its falsy branch and the adapter connects to
`http://localhost:5984` whatever URI was supplied — for
`couchdb://db.example.com:5984` the claimed endpoint
`http://db.example.com:5984` is never used. -/
theorem connect_ignores_uri (uri : Option String) (opts : Option JsVal) :
    (mkAdapter uri opts).url = none
    ∧ connectUrl (mkAdapter uri opts) = "http://localhost:5984"
    ∧ "http://localhost:5984" ≠ "http://db.example.com:5984" :=
  ⟨rfl, rfl, by decide⟩

/-- C10: `find` mutates the caller's filter object in place: when the
selector contains a bare (non-object-typed) value, the caller's filters
object observed after the call carries the normalized selector — which
differs from the original selector, the bare entry now being in
`{$eq: value}` form.  (`(find db filters).filters` models the caller's
own object after the call: the source's `forEach` writes through the
alias rather than into a copy.) -/
theorem find_mutates_selector (db : DB) (filters : Doc)
    (s : List (String × JsVal)) (k : String) (v : JsVal)
    (hsel : jsIndex filters "selector" = JsVal.vobj s)
    (hmem : (k, v) ∈ s) (hv : jsTypeof v ≠ "object") :
    docGet (find db filters).filters "selector"
        = some (normalizeSelector (JsVal.vobj s))
    ∧ normalizeSelector (JsVal.vobj s) ≠ JsVal.vobj s
    ∧ (k, JsVal.vobj [("$eq", v)])
        ∈ s.map (fun p => (p.1, normalizeValue p.2)) := by
  have hfa : (find db filters).filters
      = docSet filters "selector" (normalizeSelector (JsVal.vobj s)) := by
    simp only [find, selectorOf, hsel]
  refine ⟨by rw [hfa]; exact docGet_docSet_self _ _ _, ?_, ?_⟩
  · rw [normalizeSelector]
    intro h
    have hlist : s.map (fun p => (p.1, normalizeValue p.2)) = s :=
      (JsVal.vobj.inj h)
    refine map_ne_self_of_mem _ s (k, v) hmem ?_ hlist
    intro hc
    have h5 : normalizeValue v = v := (Prod.mk.inj hc).2
    rw [normalizeValue_of_not_object v hv] at h5
    exact ne_vobj_of_typeof v hv [("$eq", v)] h5.symm
  · have hm := List.mem_map_of_mem
      (fun p : String × JsVal => (p.1, normalizeValue p.2)) hmem
    simpa [normalizeValue_of_not_object v hv] using hm

/-- Witness for C10 at a concrete filter `{selector: {a: 1}}` over an
empty database. -/
theorem find_mutates_selector_wit :
    docGet (find ⟨[]⟩ [("selector", JsVal.vobj [("a", JsVal.vnum 1)])]).filters
        "selector"
        = some (normalizeSelector (JsVal.vobj [("a", JsVal.vnum 1)]))
    ∧ normalizeSelector (JsVal.vobj [("a", JsVal.vnum 1)])
        ≠ JsVal.vobj [("a", JsVal.vnum 1)]
    ∧ ("a", JsVal.vobj [("$eq", JsVal.vnum 1)])
        ∈ ([("a", JsVal.vnum 1)] : List (String × JsVal)).map
            (fun p => (p.1, normalizeValue p.2)) :=
  find_mutates_selector ⟨[]⟩ [("selector", JsVal.vobj [("a", JsVal.vnum 1)])]
    [("a", JsVal.vnum 1)] "a" (JsVal.vnum 1) rfl (List.Mem.head _) (by decide)

end CouchDbNano
